import Mathlib

/-!
Verification of the go-ircevo IRC client library (session engine).

Shallow embedding: Go strings are modelled as `List Char`, Go maps used by
the code either as association lists (tags, DCC registry) or as record
fields; wall-clock times are abstract `Nat` ticks.  Each definition below is
translated from the corresponding Go function of the repository
(`parseToEvent`, `unescapeTagValue`, `AnalyzeErrorMessage`, the numbered
nickname callbacks of `setupCallbacks`, `modifyNick`, `Nick`, `Loop`,
`negotiateCaps`/`Connect`, and the DCC-chat manager).
-/

namespace GoIrcEvo

/-- Go `strings.Contains`: `hasSub s pat` is true iff `pat` occurs as a
contiguous substring of `s` (the empty pattern occurs in every string). -/
def hasSub : List Char → List Char → Bool
  | s, pat =>
    pat.isPrefixOf s ||
      match s with
      | [] => false
      | _ :: t => hasSub t pat

/-- Index of the first space character, Go `strings.Index(s, " ")`. -/
def firstSpace (l : List Char) : Option Nat := l.findIdx? (· = ' ')

/-- Go `strings.Split(s, sep)` for a one-character separator (`Split` of an
empty string yields one empty field, as in Go). -/
def splitOnChar (c : Char) : List Char → List (List Char)
  | [] => [[]]
  | x :: t =>
    if x = c then [] :: splitOnChar c t
    else
      match splitOnChar c t with
      | [] => [[x]]
      | h :: r => (x :: h) :: r

/-- Index of the first occurrence of the two-character pattern `[a, b]`. -/
def findSub2 (a b : Char) : List Char → Option Nat
  | [] => none
  | [_] => none
  | x :: y :: t =>
    if x = a ∧ y = b then some 0
    else (findSub2 a b (y :: t)).map (· + 1)

/-- Go `strings.LastIndex(s, p)` for a one-character pattern `p`. -/
def lastIdxOf (c : Char) (l : List Char) : Option Nat :=
  (l.reverse.findIdx? (· = c)).map (fun i => l.length - 1 - i)

/-- Go `strings.Replace(s, [a,b], [c], -1)`: replace every non-overlapping
occurrence of the two-character pattern `[a, b]`, scanning left to right,
by the single character `c`.  All five escape sequences of the IRCv3 tag
table are two characters replaced by one, so this captures each pass of
`unescapeTagValue`. -/
def repl2 (a b c : Char) : List Char → List Char
  | [] => []
  | [x] => [x]
  | x :: y :: rest =>
    if x = a ∧ y = b then c :: repl2 a b c rest
    else x :: repl2 a b c (y :: rest)

/-- `unescapeTagValue` from irc.go: five sequential `strings.Replace`
passes, in the source order `\:`→`;`, `\s`→space, `\\`→`\`, `\r`→CR,
`\n`→LF. -/
def unescapeTagValue (v : List Char) : List Char :=
  repl2 '\\' 'n' '\n'
    (repl2 '\\' 'r' '\r'
      (repl2 '\\' '\\' '\\'
        (repl2 '\\' 's' ' '
          (repl2 '\\' ':' ';' v))))

/-- Modelled from the spec: the five-sequence escape table of §6
(`;`→`\:`, space→`\s`, `\`→`\\`, CR→`\r`, LF→`\n`), applied
character-wise.  The repository contains no encoder; this is the
specification's encoding direction for the round-trip claim. -/
def escChar (c : Char) : List Char :=
  if c = ';' then ['\\', ':']
  else if c = ' ' then ['\\', 's']
  else if c = '\\' then ['\\', '\\']
  else if c = '\r' then ['\\', 'r']
  else if c = '\n' then ['\\', 'n']
  else [c]

/-- Concatenation of a character-wise encoding over a string. -/
def flatEnc (f : Char → List Char) : List Char → List Char
  | [] => []
  | c :: s => f c ++ flatEnc f s

/-- Modelled from the spec: full tag-value encoder. -/
def escapeTagValueSpec (s : List Char) : List Char := flatEnc escChar s

/-- The `Event` struct of irc_struct.go (string fields as `List Char`,
the tag map as an association list in insertion order; the `Connection`
back-pointer and `Ctx` are omitted as they carry no parsed data). -/
structure Event where
  Code : List Char := []
  Raw : List Char := []
  Nick : List Char := []
  Host : List Char := []
  Source : List Char := []
  User : List Char := []
  Arguments : List (List Char) := []
  Tags : List (List Char × List Char) := []
deriving Repr, DecidableEq

/-- `Event.Message` from irc_struct.go: the last argument, or the empty
string when there are none. -/
def Event.Message (e : Event) : List Char :=
  match e.Arguments.getLast? with
  | none => []
  | some m => m

/-- Outcome of `parseToEvent`.  `malformed` is Go returning the
"malformed msg from server" error; `crash` marks the one input class on
which the Go code indexes `msg[0]` on an empty string and panics (a tag
segment followed by a space and nothing else). -/
inductive ParseResult where
  | ok (e : Event)
  | malformed
  | crash
deriving Repr, DecidableEq

def ParseResult.isOk : ParseResult → Bool
  | .ok _ => true
  | _ => false

/-- `strings.TrimSuffix(l, [c])`: drop one trailing `c` if present. -/
def trimSuffix1 (c : Char) (l : List Char) : List Char :=
  if l.getLast? = some c then l.dropLast else l

/-- The parser's initial trimming: `TrimSuffix "\n"` then `TrimSuffix "\r"`. -/
def trimEol (l : List Char) : List Char := trimSuffix1 '\r' (trimSuffix1 '\n' l)

/-- Tag-segment decoding from `parseToEvent`: split on `;`, then each
`key[=value]` on the first `=`, unescaping values.  A tag without `=`
maps to the empty value, as in the Go code. -/
def parseTags (seg : List Char) : List (List Char × List Char) :=
  (splitOnChar ';' seg).map fun data =>
    match data.findIdx? (· = '=') with
    | none => (data, [])
    | some i => (data.take i, unescapeTagValue (data.drop (i + 1)))

/-- Source decomposition from `parseToEvent`: if the source token contains
`!` before `@`, split it into nick/user/host. -/
def withSource (ev : Event) (src : List Char) : Event :=
  let ev := { ev with Source := src }
  match src.findIdx? (· = '!'), src.findIdx? (· = '@') with
  | some i, some j =>
    if i < j then
      { ev with Nick := src.take i, User := (src.take j).drop (i + 1),
                Host := src.drop (j + 1) }
    else ev
  | _, _ => ev

/-- Final phase of `parseToEvent`: split once on the first `" :"` for the
trailing argument, split the lead on spaces, upper-case the command. -/
def finishedEvent (ev : Event) (msg : List Char) : Event :=
  let (lead, trailing) :=
    match findSub2 ' ' ':' msg with
    | none => (msg, none)
    | some i => (msg.take i, some (msg.drop (i + 2)))
  let args := splitOnChar ' ' lead
  let code := (args.headD []).map Char.toUpper
  let rest := args.tail
  { ev with
    Code := code,
    Arguments := match trailing with | none => rest | some t => rest ++ [t] }

/-- The always-successful tail of the parser, wrapped as a `ParseResult`. -/
def finishEvent (ev : Event) (msg : List Char) : ParseResult :=
  .ok (finishedEvent ev msg)

/-- `parseToEvent` after the optional tag segment has been removed: the Go
code evaluates `msg[0]` here, so an empty remainder is the panic case. -/
def afterTags (ev : Event) (msg : List Char) : ParseResult :=
  match msg with
  | [] => .crash
  | c :: _ =>
    if c = ':' then
      match firstSpace msg with
      | none => .malformed
      | some i =>
        finishEvent (withSource ev ((msg.take i).drop 1)) (msg.drop (i + 1))
    else finishEvent ev msg

/-- Body of `parseToEvent` from irc.go after trimming: empty input is the
"malformed msg from server" error; a leading `@` introduces the tag
segment (error when it has no space); then the optional `:source` token;
then command and arguments. -/
def parseCore (msg : List Char) : ParseResult :=
  match msg with
  | [] => .malformed
  | c :: _ =>
    if c = '@' then
      match firstSpace msg with
      | none => .malformed
      | some i =>
        afterTags { Raw := msg, Tags := parseTags ((msg.take i).drop 1) }
          (msg.drop (i + 1))
    else afterTags { Raw := msg } msg

/-- `parseToEvent` from irc.go (current version: minimum length 1). -/
def parseToEvent (raw : List Char) : ParseResult := parseCore (trimEol raw)

/-- The remainder of a trimmed line after the optional tag segment, used
to state exactly when `parseToEvent` fails: `none` when a `@`-line has no
space at all (the first error branch). -/
def tagRemainder (m : List Char) : Option (List Char) :=
  if m.head? = some '@' then (firstSpace m).map (fun i => m.drop (i + 1))
  else some m

/-- Exactly the trimmed inputs on which `parseToEvent` returns the
"malformed msg from server" error: empty input, a tag marker with no
space anywhere, or a post-tag remainder that starts with the source
marker and has no space. -/
def malformedCond (m : List Char) : Prop :=
  m = [] ∨ (m.head? = some '@' ∧ firstSpace m = none) ∨
    (∃ r, tagRemainder m = some r ∧ r ≠ [] ∧ r.head? = some ':' ∧
      firstSpace r = none)

/-- Exactly the trimmed inputs on which the Go code panics (it indexes
`msg[0]` after the tag segment left nothing). -/
def crashCond (m : List Char) : Prop :=
  m ≠ [] ∧ tagRemainder m = some []

/-- The `ErrorType` enumeration of irc_struct.go. -/
inductive ErrorType where
  | RecoverableError
  | PermanentError
  | ServerError
  | NetworkError
deriving Repr, DecidableEq

def strL (s : String) : List Char := s.toList

/-- `permanentPatterns` from `AnalyzeErrorMessage` in irc.go. -/
def permanentPatterns : List (List Char) :=
  [strL "k-lined", strL "k-line", strL "klined",
   strL "g-lined", strL "g-line", strL "glined",
   strL "banned", strL "you are banned", strL "user is banned",
   strL "unauthorized connection",
   strL "connection refused",
   strL "access denied",
   strL "you are not authorized",
   strL "blacklisted",
   strL "throttled", strL "throttling",
   strL "flood", strL "flooding",
   strL "spam", strL "spamming"]

/-- `serverPatterns` from `AnalyzeErrorMessage` in irc.go. -/
def serverPatterns : List (List Char) :=
  [strL "too many connections",
   strL "too many host connections",
   strL "too many host connections (local)",
   strL "too many host connections (global)",
   strL "too many global connections",
   strL "connection limit exceeded",
   strL "server full",
   strL "max connections reached",
   strL "too many connections from this ip",
   strL "too many connections from your host",
   strL "connection limit",
   strL "host limit",
   strL "ip limit",
   strL "clone limit",
   strL "too many clones"]

/-- `networkPatterns` from `AnalyzeErrorMessage` in irc.go. -/
def networkPatterns : List (List Char) :=
  [strL "connection reset",
   strL "connection timed out",
   strL "network unreachable",
   strL "no route to host",
   strL "connection lost",
   strL "broken pipe"]

/-- `recoverablePatterns` from `AnalyzeErrorMessage` in irc.go. -/
def recoverablePatterns : List (List Char) :=
  [strL "registration timeout",
   strL "ping timeout",
   strL "server shutting down",
   strL "server restart"]

/-- Does any pattern of the family occur in the string? -/
def matchAny (pats : List (List Char)) (s : List Char) : Bool :=
  pats.any (fun p => hasSub s p)

/-- `AnalyzeErrorMessage` from irc.go: lower-case the message (ASCII
case-folding models Go `strings.ToLower` on these ASCII patterns), then
try the four pattern families in source order, defaulting to
`RecoverableError`. -/
def AnalyzeErrorMessage (msg : List Char) : ErrorType :=
  let errorLower := msg.map Char.toLower
  if matchAny permanentPatterns errorLower then .PermanentError
  else if matchAny serverPatterns errorLower then .ServerError
  else if matchAny networkPatterns errorLower then .NetworkError
  else if matchAny recoverablePatterns errorLower then .RecoverableError
  else .RecoverableError

/-! ### The control loop (`Loop` from irc.go)

`Loop` receives error strings from the error channel.  With
`HandleErrorAsDisconnect` set (the default), a permanent-ERROR string
halts; a string containing `"RecoverableError"` is checked against the
`MaxRecoverableReconnects` ceiling; otherwise the inner loop retries
`Reconnect` (incrementing `recoverableReconnects` per attempt when the
error was recoverable) until an attempt succeeds, and then resets the
counter to zero.  Reconnect outcomes are supplied as a list of booleans;
an exhausted outcome list simply stops the inner loop (the real code
would keep retrying forever, which no finite trace observes). -/

def permMarker : List Char := strL "Received permanent ERROR from server:"

def recovMarker : List Char := strL "RecoverableError"

/-- Inner reconnect loop of `Loop`: returns the updated counter and the
number of `Reconnect` attempts performed. -/
def innerReconnect (recov : Bool) : Nat → List Bool → Nat × Nat
  | counter, [] => (counter, 0)
  | counter, ok :: rest =>
    let counter := if recov then counter + 1 else counter
    if ok then (0, 1)
    else
      let (c, n) := innerReconnect recov counter rest
      (c, n + 1)

/-- One outer iteration of `Loop` for a received error string: returns
(halted, new counter, reconnect attempts performed). -/
def loopStep (max counter : Nat) (errStr : List Char) (outcomes : List Bool) :
    Bool × Nat × Nat :=
  if hasSub errStr permMarker then (true, counter, 0)
  else if hasSub errStr recovMarker ∧ 0 < max ∧ max ≤ counter then
    (true, counter, 0)
  else
    let (c, n) := innerReconnect (hasSub errStr recovMarker) counter outcomes
    (false, c, n)

/-- Run `Loop` over a trace of received errors (each with its list of
reconnect outcomes): returns the total number of `Reconnect` attempts and
whether the loop halted. -/
def loopRun (max : Nat) : Nat → List (List Char × List Bool) → Nat × Bool
  | _, [] => (0, false)
  | counter, (e, outs) :: rest =>
    match loopStep max counter e outs with
    | (true, _, n) => (n, true)
    | (false, c, n) =>
      let (m, hlt) := loopRun max c rest
      (n + m, hlt)

/-- The error string `readLoop` emits for a recoverable server ERROR. -/
def recovErrStr : List Char :=
  strL "Received RecoverableError from server: Ping timeout"

/-! ### CTCP reclassification (`RunCallbacks` prologue, irc_callback.go)

Before fan-out, a PRIVMSG whose payload is wrapped in `\x01` markers is
rewritten: the code becomes one of the recognised `CTCP_*` codes (or the
generic `CTCP`), and the markers are stripped from the last argument.  A
payload starting with `\x01` whose last `\x01` is at position 0 is logged
and dropped (`none`). -/

def ctcpDelim : Char := '\x01'

/-- Rewrite an event's code and payload, with the given derived code. -/
def ctcpUpd (e : Event) (code : String) (m : List Char) : Event :=
  { e with Code := strL code, Arguments := e.Arguments.dropLast ++ [m] }

/-- The CTCP reclassification performed at the top of `RunCallbacks`. -/
def ctcpRewrite (e : Event) : Option Event :=
  let msg := e.Message
  if e.Code = strL "PRIVMSG" ∧ 2 < msg.length ∧ msg.head? = some ctcpDelim then
    match lastIdxOf ctcpDelim msg with
    | none => none
    | some i =>
      if 0 < i then
        let m := (msg.take i).drop 1
        if m = strL "VERSION" then some (ctcpUpd e "CTCP_VERSION" m)
        else if m = strL "TIME" then some (ctcpUpd e "CTCP_TIME" m)
        else if (strL "PING").isPrefixOf m then some (ctcpUpd e "CTCP_PING" m)
        else if m = strL "USERINFO" then some (ctcpUpd e "CTCP_USERINFO" m)
        else if m = strL "CLIENTINFO" then some (ctcpUpd e "CTCP_CLIENTINFO" m)
        else if (strL "ACTION").isPrefixOf m then
          some (ctcpUpd e "CTCP_ACTION" (if 6 < m.length then m.drop 7 else []))
        else some (ctcpUpd e "CTCP" m)
      else none
  else some e

/-! ### The nickname state machine

The relevant fields of the `Connection` struct (irc_struct.go), with
wall-clock times as abstract `Nat` ticks and the outbound queue visible
as the ghost field `sent` recording every `SendRawf`/`pwrite` message in
order. -/

structure Conn where
  nick : List Char
  nickcurrent : List Char
  user : List Char
  nickPending : List Char := []
  nickError : List Char := []
  nickChangeInProgress : Bool := false
  nickChangeTimeout : Nat := 0
  lastNickChange : Nat := 0
  fullyConnected : Bool := false
  registrationSteps : Nat := 0
  sentRegistration : Bool := false
  sent : List (List Char) := []
deriving Repr, DecidableEq

/-- Enqueue one outbound message (`SendRaw`/`SendRawf`). -/
def sendRaw (s : Conn) (m : List Char) : Conn := { s with sent := s.sent ++ [m] }

/-- Initial state from the `IRC(nick, user)` constructor: both `nick` and
`nickcurrent` are seeded with the caller-supplied nickname. -/
def initConn (n u : List Char) : Conn := { nick := n, nickcurrent := n, user := u }

/-- `modifyNick` from irc_callback.go: prepend `_` when the current
nickname is longer than 8, otherwise append `_`. -/
def modifyNick (s : Conn) : Conn :=
  if 8 < s.nickcurrent.length then { s with nickcurrent := '_' :: s.nickcurrent }
  else { s with nickcurrent := s.nickcurrent ++ ['_'] }

/-- The `433` callback of `setupCallbacks` (irc_callback.go, current
version: handled regardless of connection state).  Sets the nick error,
and when the rejected nickname is the desired one, seeds `nickcurrent`
if empty, applies `modifyNick` to it, stamps the change time and sends
`NICK <nickcurrent>`. -/
def handler433 (now : Nat) (e : Event) (s : Conn) : Conn :=
  let s := { s with nickError := strL "Nickname already in use" }
  if 1 < e.Arguments.length then
    let attempted := e.Arguments.getD 1 []
    if attempted = s.nick then
      let s := if s.nickcurrent = [] then { s with nickcurrent := s.nick } else s
      let s := modifyNick s
      let s := { s with lastNickChange := now }
      sendRaw s (strL "NICK " ++ s.nickcurrent)
    else s
  else s

/-- The `437` callback (same shape as `433`, different error text). -/
def handler437 (now : Nat) (e : Event) (s : Conn) : Conn :=
  let s := { s with nickError := strL "Nickname temporarily unavailable" }
  if 1 < e.Arguments.length then
    let attempted := e.Arguments.getD 1 []
    if attempted = s.nick then
      let s := if s.nickcurrent = [] then { s with nickcurrent := s.nick } else s
      let s := modifyNick s
      let s := { s with lastNickChange := now }
      sendRaw s (strL "NICK " ++ s.nickcurrent)
    else s
  else s

/-- The `436` callback (nickname collision; same shape as `433`). -/
def handler436 (now : Nat) (e : Event) (s : Conn) : Conn :=
  let s := { s with nickError := strL "Nickname collision" }
  if 1 < e.Arguments.length then
    let attempted := e.Arguments.getD 1 []
    if attempted = s.nick then
      let s := if s.nickcurrent = [] then { s with nickcurrent := s.nick } else s
      let s := modifyNick s
      let s := { s with lastNickChange := now }
      sendRaw s (strL "NICK " ++ s.nickcurrent)
    else s
  else s

/-- The `432` callback: prefixes `Err` to the current nickname when the
rejected nickname is the desired or the current one. -/
def handler432 (now : Nat) (e : Event) (s : Conn) : Conn :=
  let s := { s with nickError := strL "Erroneous nickname" }
  if 1 < e.Arguments.length then
    let attempted := e.Arguments.getD 1 []
    if attempted = s.nick ∨ attempted = s.nickcurrent then
      let s := if s.nickcurrent = [] then { s with nickcurrent := s.nick } else s
      let s := { s with nickcurrent := strL "Err" ++ s.nickcurrent,
                        lastNickChange := now }
      sendRaw s (strL "NICK " ++ s.nickcurrent)
    else s
  else s

/-- The `431` callback: re-sends the desired nickname when set. -/
def handler431 (now : Nat) (_e : Event) (s : Conn) : Conn :=
  let s := { s with nickError := strL "No nickname given" }
  let s := if s.nickcurrent = [] then { s with nickcurrent := s.nick } else s
  if s.nick ≠ [] then
    sendRaw { s with lastNickChange := now } (strL "NICK " ++ s.nick)
  else s

/-- The `484` callback: records the error and changes nothing else. -/
def handler484 (_now : Nat) (_e : Event) (s : Conn) : Conn :=
  { s with nickError := strL "Restricted nickname" }

/-- The `NICK` callback of `setupCallbacks` (irc_callback.go, current
version): when the notification's source nick equals `nickcurrent` and
the announced nickname is non-empty, it updates `nickcurrent`, clears
`nickChangeInProgress`, unconditionally sets the desired `nick` to the
new value, stamps the time, and clears the nick error. -/
def handlerNICK (now : Nat) (e : Event) (s : Conn) : Conn :=
  if e.Nick = s.nickcurrent then
    let newNick := e.Message
    if newNick ≠ [] then
      { s with nickcurrent := newNick,
               nickChangeInProgress := false,
               nick := newNick,
               lastNickChange := now,
               nickError := [] }
    else s
  else s

/-- The `001` callback: confirms the nickname from the first argument,
also overwriting the desired nickname, marks the connection fully
established and clears the nick error. -/
def handler001 (now : Nat) (e : Event) (s : Conn) : Conn :=
  { s with nickcurrent := e.Arguments.headD [],
           nick := e.Arguments.headD [],
           fullyConnected := true,
           lastNickChange := now,
           nickError := [],
           registrationSteps := 1 }

/-- The public `Nick(n)` method from irc.go: debounced when a change is
already in progress within 30 ticks; otherwise updates the desired
nickname and, when it differs from the current one, marks the change
pending and sends the `NICK` command. -/
def nickRequest (now : Nat) (n : List Char) (s : Conn) : Conn :=
  if s.nickChangeInProgress ∧ now - s.nickChangeTimeout < 30 then
    { s with nick := n, nickPending := n, lastNickChange := now }
  else
    let s := { s with nick := n, lastNickChange := now }
    if s.nickcurrent ≠ n then
      let s := { s with nickChangeInProgress := true, nickChangeTimeout := now,
                        nickPending := n }
      sendRaw s (strL "NICK " ++ n)
    else { s with nickPending := [], nickChangeInProgress := false }

/-! ### Registration triggers (`negotiateCaps` and `Connect`, irc.go)

All three registration triggers share the same guarded block: under the
lock, if `sentRegistration` is still false it is set and the `NICK`/`USER`
pair is enqueued.  `Connect` resets the per-connection fields listed at
its top — `sentRegistration` is not among them. -/

/-- Enqueue the `NICK`/`USER` registration pair (RealName empty, so the
realname falls back to the username). -/
def sendRegistration (s : Conn) : Conn :=
  sendRaw (sendRaw s (strL "NICK " ++ s.nick))
    (strL "USER " ++ s.user ++ strL " 0 * :" ++ s.user)

/-- The no-capabilities trigger in `negotiateCaps` (also sets
`nickPending`). -/
def tryRegisterNoCaps (s : Conn) : Conn :=
  if s.sentRegistration then s
  else sendRegistration { s with sentRegistration := true, nickPending := s.nick }

/-- The CAP LS trigger in the `CAP` callback of `negotiateCaps`. -/
def tryRegisterOnCapLS (s : Conn) : Conn :=
  if s.sentRegistration then s
  else sendRegistration { s with sentRegistration := true }

/-- The 800 ms fallback-timer trigger in `negotiateCaps`. -/
def tryRegisterFallback (s : Conn) : Conn :=
  if s.sentRegistration then s
  else sendRegistration { s with sentRegistration := true, nickPending := s.nick }

/-- The per-connection state reset at the top of `Connect` (irc.go):
`fullyConnected`, `registrationSteps`, `registrationStartTime`,
`nickPending` and `nickChangeInProgress` are reset — `sentRegistration`
is not touched anywhere outside `negotiateCaps`. -/
def connectReset (s : Conn) : Conn :=
  { s with fullyConnected := false, registrationSteps := 0,
           nickPending := [], nickChangeInProgress := false }

/-- Number of registration command pairs enqueued so far (counted by the
`USER` half of the pair). -/
def regSends (s : Conn) : Nat :=
  (s.sent.filter (fun m => (strL "USER ").isPrefixOf m)).length

/-! ### DCC chat manager (irc_dcc.go)

The registry is the `chats` map keyed by peer nick; each chat's two
buffered channels (capacity 100) are modelled as lists plus a
closed flag. -/

structure DCCChat where
  nick : List Char
  incoming : List (List Char) := []
  incomingClosed : Bool := false
  outgoing : List (List Char) := []
  outgoingClosed : Bool := false
deriving Repr, DecidableEq

structure DCCManager where
  chats : List (List Char × DCCChat) := []
deriving Repr, DecidableEq

/-- Registry lookup, Go `irc.DCCManager.chats[nick]`. -/
def DCCManager.findChat (m : DCCManager) (nick : List Char) : Option DCCChat :=
  (m.chats.find? (fun p => p.1 = nick)).map Prod.snd

/-- Replace the entry for `nick` (used by the success paths). -/
def DCCManager.setChat (m : DCCManager) (nick : List Char) (c : DCCChat) :
    DCCManager :=
  { chats := m.chats.map (fun p => if p.1 = nick then (p.1, c) else p) }

/-- `SendDCCMessage` from irc_dcc.go: error when there is no active chat
with the peer; otherwise a non-blocking send on the outgoing channel
(capacity 100), failing with "channel full" when the buffer is full.
Returns the error (if any) and the manager afterwards. -/
def SendDCCMessage (m : DCCManager) (nick msg : List Char) :
    Option (List Char) × DCCManager :=
  match m.findChat nick with
  | none => (some (strL "no active DCC chat with " ++ nick), m)
  | some chat =>
    if chat.outgoing.length < 100 then
      (none, m.setChat nick { chat with outgoing := chat.outgoing ++ [msg] })
    else (some (strL "failed to send message to " ++ nick ++ strL ": channel full"), m)

/-- `GetDCCMessage` from irc_dcc.go: error when there is no active chat;
otherwise a non-blocking receive — a buffered message is taken, a closed
empty channel reports the chat closed, and an open empty channel reports
no message available.  Returns (error?, message, manager afterwards). -/
def GetDCCMessage (m : DCCManager) (nick : List Char) :
    Option (List Char) × List Char × DCCManager :=
  match m.findChat nick with
  | none => (some (strL "no active DCC chat with " ++ nick), [], m)
  | some chat =>
    match chat.incoming with
    | msg :: rest => (none, msg, m.setChat nick { chat with incoming := rest })
    | [] =>
      if chat.incomingClosed then (some (strL "DCC chat with " ++ nick ++ strL " closed"), [], m)
      else (some (strL "no message available from " ++ nick), [], m)

/-- `CloseDCCChat` from irc_dcc.go: error when there is no active chat;
otherwise the chat is closed and removed from the registry. -/
def CloseDCCChat (m : DCCManager) (nick : List Char) :
    Option (List Char) × DCCManager :=
  match m.findChat nick with
  | none => (some (strL "no active DCC chat with " ++ nick), m)
  | some _ => (none, { chats := m.chats.filter (fun p => ¬ p.1 = nick) })

/-- `ListActiveDCCChats` from irc_dcc.go: the registry's keys. -/
def ListActiveDCCChats (m : DCCManager) : List (List Char) :=
  m.chats.map Prod.fst

/-- A `001` welcome reply confirming the nickname `bob`. -/
def ev001bob : Event :=
  { Code := strL "001", Arguments := [strL "bob", strL "Welcome to IRC"] }

/-- A `433` nickname-in-use reply rejecting `alice`. -/
def ev433alice : Event :=
  { Code := strL "433",
    Arguments := [strL "*", strL "alice", strL "Nickname is already in use"] }

/-- A `433` nickname-in-use reply rejecting `bob`. -/
def ev433bob : Event :=
  { Code := strL "433",
    Arguments := [strL "*", strL "bob", strL "Nickname is already in use"] }

/-- The event parsed from the wire line `:bob!u@h NICK :alice`. -/
def evNickBobAlice : Event :=
  { Code := strL "NICK", Raw := strL ":bob!u@h NICK :alice",
    Nick := strL "bob", User := strL "u", Host := strL "h",
    Source := strL "bob!u@h", Arguments := [strL "alice"] }

/-- A PRIVMSG event whose trailing argument is `\x01VERSION\x01`. -/
def evCtcpVersion : Event :=
  { Code := strL "PRIVMSG", Nick := strL "alice",
    Arguments := [strL "#ch", ctcpDelim :: (strL "VERSION" ++ [ctcpDelim])] }

/-- A sample DCC registry with a single active chat with `alice`. -/
def dccSample : DCCManager :=
  { chats := [(strL "alice", { nick := strL "alice" })] }

/-- Stage-`k` encoding of a character: the escape pairs whose replacement
pass has already run (passes `1..k` in the order of `unescapeTagValue`)
are collapsed back to the plain character. -/
def encStage (k : Nat) (c : Char) : List Char :=
  if c = ';' then (if 1 ≤ k then [';'] else ['\\', ':'])
  else if c = ' ' then (if 2 ≤ k then [' '] else ['\\', 's'])
  else if c = '\\' then (if 3 ≤ k then ['\\'] else ['\\', '\\'])
  else if c = '\r' then (if 4 ≤ k then ['\r'] else ['\\', 'r'])
  else if c = '\n' then (if 5 ≤ k then ['\n'] else ['\\', 'n'])
  else [c]

/-! ## Theorems -/

theorem repl2_cons_safe (a b c x : Char) (hx : x ≠ a) (l : List Char) :
    repl2 a b c (x :: l) = x :: repl2 a b c l := by
  cases l with
  | nil => rfl
  | cons y t =>
    have : ¬ (x = a ∧ y = b) := fun h => hx h.1
    simp [repl2, this]

theorem repl2_pair_match (a b c : Char) (l : List Char) :
    repl2 a b c (a :: b :: l) = c :: repl2 a b c l := by
  simp [repl2]

theorem repl2_pair_skip (a b c x y : Char) (h : ¬ (x = a ∧ y = b)) (l : List Char) :
    repl2 a b c (x :: y :: l) = x :: repl2 a b c (y :: l) := by
  simp only [repl2, if_neg h]

theorem repl2_flatEnc (a b r : Char) (f g : Char → List Char) (s : List Char)
    (h : ∀ c ∈ s,
      (f c = [a, b] ∧ g c = [r]) ∨
      (f c = g c ∧
        ((∃ d, f c = [a, d] ∧ d ≠ b ∧ d ≠ a) ∨ (∃ e, f c = [e] ∧ e ≠ a)))) :
    repl2 a b r (flatEnc f s) = flatEnc g s := by
  induction s with
  | nil => rfl
  | cons c s ih =>
    have hc := h c (List.mem_cons_self c s)
    have ih' := ih (fun x hx => h x (List.mem_cons_of_mem c hx))
    rcases hc with ⟨hf, hg⟩ | ⟨hfg, ⟨d, hf, hdb, hda⟩ | ⟨e, hf, hea⟩⟩
    · show repl2 a b r (f c ++ flatEnc f s) = g c ++ flatEnc g s
      rw [hf, hg]
      show repl2 a b r (a :: b :: flatEnc f s) = r :: flatEnc g s
      rw [repl2_pair_match, ih']
    · show repl2 a b r (f c ++ flatEnc f s) = g c ++ flatEnc g s
      rw [hf, ← hfg, hf]
      show repl2 a b r (a :: d :: flatEnc f s) = a :: d :: flatEnc g s
      have hq : ¬ (a = a ∧ d = b) := fun hq => hdb hq.2
      rw [repl2_pair_skip a b r a d hq, repl2_cons_safe a b r d hda, ih']
    · show repl2 a b r (f c ++ flatEnc f s) = g c ++ flatEnc g s
      rw [hf, ← hfg, hf]
      show repl2 a b r (e :: flatEnc f s) = e :: flatEnc g s
      rw [repl2_cons_safe a b r e hea, ih']

theorem flatEnc_stage5 (s : List Char) : flatEnc (encStage 5) s = s := by
  induction s with
  | nil => rfl
  | cons c s ih =>
    show encStage 5 c ++ flatEnc (encStage 5) s = c :: s
    rw [ih]
    by_cases h1 : c = ';' <;> by_cases h2 : c = ' ' <;> by_cases h3 : c = '\\' <;>
      by_cases h4 : c = '\r' <;> by_cases h5 : c = '\n' <;>
      simp_all [encStage]

/-- C5 (amended): the spec's five-sequence tag-value encoding followed by
the code's `unescapeTagValue` is the identity on every string that
contains no backslash.  (The original all-strings claim fails: see the
counterexample below.) -/
theorem tag_roundtrip_no_backslash (s : List Char) (h : '\\' ∉ s) :
    unescapeTagValue (escapeTagValueSpec s) = s := by
  have hmem : ∀ c ∈ s, c ≠ '\\' := fun c hc hq => h (hq ▸ hc)
  have p1 : repl2 '\\' ':' ';' (flatEnc (encStage 0) s) = flatEnc (encStage 1) s := by
    apply repl2_flatEnc
    intro c hc
    have hc' := hmem c hc
    by_cases h1 : c = ';'
    · left; simp [encStage, h1]
    · right
      by_cases h2 : c = ' '
      · exact ⟨by simp [encStage, h1, h2], Or.inl ⟨'s', by simp [encStage, h1, h2], by decide, by decide⟩⟩
      · by_cases h4 : c = '\r'
        · exact ⟨by simp [encStage, h1, h2, h4], Or.inl ⟨'r', by simp [encStage, h1, h2, h4], by decide, by decide⟩⟩
        · by_cases h5 : c = '\n'
          · exact ⟨by simp [encStage, h1, h2, h4, h5], Or.inl ⟨'n', by simp [encStage, h1, h2, h4, h5], by decide, by decide⟩⟩
          · exact ⟨by simp [encStage, h1, h2, hc', h4, h5], Or.inr ⟨c, by simp [encStage, h1, h2, hc', h4, h5], hc'⟩⟩
  have p2 : repl2 '\\' 's' ' ' (flatEnc (encStage 1) s) = flatEnc (encStage 2) s := by
    apply repl2_flatEnc
    intro c hc
    have hc' := hmem c hc
    by_cases h2 : c = ' '
    · left; simp [encStage, h2]
    · right
      by_cases h1 : c = ';'
      · exact ⟨by simp [encStage, h1], Or.inr ⟨';', by simp [encStage, h1], by decide⟩⟩
      · by_cases h4 : c = '\r'
        · exact ⟨by simp [encStage, h1, h2, h4], Or.inl ⟨'r', by simp [encStage, h1, h2, h4], by decide, by decide⟩⟩
        · by_cases h5 : c = '\n'
          · exact ⟨by simp [encStage, h1, h2, h4, h5], Or.inl ⟨'n', by simp [encStage, h1, h2, h4, h5], by decide, by decide⟩⟩
          · exact ⟨by simp [encStage, h1, h2, hc', h4, h5], Or.inr ⟨c, by simp [encStage, h1, h2, hc', h4, h5], hc'⟩⟩
  have p3 : repl2 '\\' '\\' '\\' (flatEnc (encStage 2) s) = flatEnc (encStage 3) s := by
    apply repl2_flatEnc
    intro c hc
    have hc' := hmem c hc
    right
    by_cases h1 : c = ';'
    · exact ⟨by simp [encStage, h1], Or.inr ⟨';', by simp [encStage, h1], by decide⟩⟩
    · by_cases h2 : c = ' '
      · exact ⟨by simp [encStage, h1, h2], Or.inr ⟨' ', by simp [encStage, h1, h2], by decide⟩⟩
      · by_cases h4 : c = '\r'
        · exact ⟨by simp [encStage, h1, h2, h4], Or.inl ⟨'r', by simp [encStage, h1, h2, h4], by decide, by decide⟩⟩
        · by_cases h5 : c = '\n'
          · exact ⟨by simp [encStage, h1, h2, h4, h5], Or.inl ⟨'n', by simp [encStage, h1, h2, h4, h5], by decide, by decide⟩⟩
          · exact ⟨by simp [encStage, h1, h2, hc', h4, h5], Or.inr ⟨c, by simp [encStage, h1, h2, hc', h4, h5], hc'⟩⟩
  have p4 : repl2 '\\' 'r' '\r' (flatEnc (encStage 3) s) = flatEnc (encStage 4) s := by
    apply repl2_flatEnc
    intro c hc
    have hc' := hmem c hc
    by_cases h4 : c = '\r'
    · left; simp [encStage, h4]
    · right
      by_cases h1 : c = ';'
      · exact ⟨by simp [encStage, h1], Or.inr ⟨';', by simp [encStage, h1], by decide⟩⟩
      · by_cases h2 : c = ' '
        · exact ⟨by simp [encStage, h1, h2], Or.inr ⟨' ', by simp [encStage, h1, h2], by decide⟩⟩
        · by_cases h5 : c = '\n'
          · exact ⟨by simp [encStage, h1, h2, h4, h5], Or.inl ⟨'n', by simp [encStage, h1, h2, h4, h5], by decide, by decide⟩⟩
          · exact ⟨by simp [encStage, h1, h2, hc', h4, h5], Or.inr ⟨c, by simp [encStage, h1, h2, hc', h4, h5], hc'⟩⟩
  have p5 : repl2 '\\' 'n' '\n' (flatEnc (encStage 4) s) = flatEnc (encStage 5) s := by
    apply repl2_flatEnc
    intro c hc
    have hc' := hmem c hc
    by_cases h5 : c = '\n'
    · left; simp [encStage, h5]
    · right
      by_cases h1 : c = ';'
      · exact ⟨by simp [encStage, h1], Or.inr ⟨';', by simp [encStage, h1], by decide⟩⟩
      · by_cases h2 : c = ' '
        · exact ⟨by simp [encStage, h1, h2], Or.inr ⟨' ', by simp [encStage, h1, h2], by decide⟩⟩
        · by_cases h4 : c = '\r'
          · exact ⟨by simp [encStage, h1, h2, h4], Or.inr ⟨'\r', by simp [encStage, h1, h2, h4], by decide⟩⟩
          · exact ⟨by simp [encStage, h1, h2, hc', h4, h5], Or.inr ⟨c, by simp [encStage, h1, h2, hc', h4, h5], hc'⟩⟩
  have hchar : ∀ c : Char, escChar c = encStage 0 c := by
    intro c
    by_cases h1 : c = ';' <;> by_cases h2 : c = ' ' <;> by_cases h3 : c = '\\' <;>
      by_cases h4 : c = '\r' <;> by_cases h5 : c = '\n' <;>
      simp_all [encStage, escChar]
  have h0 : escapeTagValueSpec s = flatEnc (encStage 0) s := by
    rw [escapeTagValueSpec, funext hchar]
  calc unescapeTagValue (escapeTagValueSpec s)
      = repl2 '\\' 'n' '\n' (repl2 '\\' 'r' '\r' (repl2 '\\' '\\' '\\'
          (repl2 '\\' 's' ' ' (repl2 '\\' ':' ';' (flatEnc (encStage 0) s))))) := by
        rw [unescapeTagValue, h0]
    _ = s := by rw [p1, p2, p3, p4, p5, flatEnc_stage5]

/-- C5 witness: the amended round-trip at the concrete backslash-free
string `"; a\r\n"`. -/
theorem tag_roundtrip_no_backslash_witness :
    '\\' ∉ [';', ' ', 'a', '\r', '\n'] ∧
      unescapeTagValue (escapeTagValueSpec [';', ' ', 'a', '\r', '\n']) =
        [';', ' ', 'a', '\r', '\n'] :=
  ⟨by decide, tag_roundtrip_no_backslash [';', ' ', 'a', '\r', '\n'] (by decide)⟩

/-- C5 counterexample: the original claim fails at the two-character
string `\s`.  Its spec encoding is `\\s`, but `unescapeTagValue` decodes
that to `\ ` (the second replacement pass rewrites the trailing `\s` of
`\\s`), not back to `\s`. -/
theorem tag_roundtrip_cex :
    escapeTagValueSpec ['\\', 's'] = ['\\', '\\', 's'] ∧
      unescapeTagValue ['\\', '\\', 's'] = ['\\', ' '] ∧
      unescapeTagValue (escapeTagValueSpec ['\\', 's']) ≠ ['\\', 's'] := by
  refine ⟨by decide, by decide, by decide⟩

theorem afterTags_cases (ev : Event) (r : List Char) :
    (afterTags ev r = .malformed ↔
      (r ≠ [] ∧ r.head? = some ':' ∧ firstSpace r = none)) ∧
    (afterTags ev r = .crash ↔ r = []) ∧
    ((∃ e, afterTags ev r = .ok e) ↔
      (r ≠ [] ∧ (r.head? = some ':' → firstSpace r ≠ none))) := by
  cases r with
  | nil => simp [afterTags]
  | cons c t =>
    by_cases hc : c = ':'
    · subst hc
      cases hs : firstSpace (':' :: t) with
      | none => simp [afterTags, hs]
      | some i => simp [afterTags, hs, finishEvent]
    · simp [afterTags, hc, finishEvent]

/-- C4 (amended): the parser fails exactly on the three malformed input
classes — empty trimmed line, a tag marker with no space, or a post-tag
remainder starting with `:` and containing no space — and panics exactly
when the tag segment is followed by a space and nothing else; every other
line yields an `Event`, with no minimum-length requirement, so the
single-token line `"PING"` parses successfully.  (The original claim —
error exactly on empty input — fails: see the counterexample.) -/
theorem parseToEvent_cases (raw : List Char) :
    (parseToEvent raw = .malformed ↔ malformedCond (trimEol raw)) ∧
    (parseToEvent raw = .crash ↔ crashCond (trimEol raw)) ∧
    ((∃ e, parseToEvent raw = .ok e) ↔
      (¬ malformedCond (trimEol raw) ∧ ¬ crashCond (trimEol raw))) ∧
    parseToEvent (strL "PING") =
      .ok { Raw := strL "PING", Code := strL "PING" } := by
  have core : ∀ m : List Char,
      (parseCore m = .malformed ↔ malformedCond m) ∧
      (parseCore m = .crash ↔ crashCond m) ∧
      ((∃ e, parseCore m = .ok e) ↔ (¬ malformedCond m ∧ ¬ crashCond m)) := by
    intro m
    cases m with
    | nil => simp [parseCore, malformedCond, crashCond, tagRemainder]
    | cons c t =>
      by_cases hc : c = '@'
      · subst hc
        cases hs : firstSpace ('@' :: t) with
        | none =>
          refine ⟨?_, ?_, ?_⟩ <;>
            simp [parseCore, hs, malformedCond, crashCond, tagRemainder]
        | some i =>
          have hr : tagRemainder ('@' :: t) = some (List.drop i t) := by
            simp [tagRemainder, hs]
          have hpc : parseCore ('@' :: t) =
              afterTags
                { Raw := '@' :: t,
                  Tags := parseTags ((List.take i ('@' :: t)).drop 1) }
                (List.drop i t) := by
            simp only [parseCore, hs, if_pos, List.drop_succ_cons]
          have ha := afterTags_cases
            { Raw := '@' :: t, Tags := parseTags ((List.take i ('@' :: t)).drop 1) }
            (List.drop i t)
          have hm : malformedCond ('@' :: t) ↔
              (List.drop i t ≠ [] ∧ (List.drop i t).head? = some ':' ∧
                firstSpace (List.drop i t) = none) := by
            unfold malformedCond
            rw [hr, hs]
            simp
          have hcr : crashCond ('@' :: t) ↔ List.drop i t = [] := by
            unfold crashCond
            rw [hr]
            simp
          refine ⟨?_, ?_, ?_⟩
          · rw [hpc, hm]
            exact ha.1
          · rw [hpc, hcr]
            exact ha.2.1
          · rw [hpc, hm, hcr, ha.2.2]
            constructor
            · rintro ⟨hne, himp⟩
              exact ⟨fun h => himp h.2.1 h.2.2, hne⟩
            · rintro ⟨hnm, hnc⟩
              exact ⟨hnc, fun hh hsp => hnm ⟨hnc, hh, hsp⟩⟩
      · have hr : tagRemainder (c :: t) = some (c :: t) := by
          simp [tagRemainder, hc]
        have hpc : parseCore (c :: t) = afterTags { Raw := c :: t } (c :: t) := by
          simp only [parseCore]
          rw [if_neg hc]
        have ha := afterTags_cases { Raw := c :: t } (c :: t)
        have hm : malformedCond (c :: t) ↔
            ((c :: t) ≠ [] ∧ (c :: t).head? = some ':' ∧
              firstSpace (c :: t) = none) := by
          unfold malformedCond
          rw [hr]
          simp [hc]
        have hcr : ¬ crashCond (c :: t) := by
          unfold crashCond
          rw [hr]
          simp
        refine ⟨?_, ?_, ?_⟩
        · rw [hpc, hm]
          exact ha.1
        · rw [hpc, ha.2.1]
          simp [hcr]
        · rw [hpc, ha.2.2, hm]
          simp only [hcr, not_false_iff, and_true]
          constructor
          · rintro ⟨hne, himp⟩ ⟨h1, h2, h3⟩
            exact himp h2 h3
          · intro hnm
            exact ⟨by simp, fun hh hsp => hnm ⟨by simp, hh, hsp⟩⟩
  refine ⟨(core (trimEol raw)).1, (core (trimEol raw)).2.1, (core (trimEol raw)).2.2, ?_⟩
  decide

/-- C4 counterexample: the line `"@x"` is non-empty after trimming, yet
`parseToEvent` rejects it (tag marker with no space), so "an error is
returned exactly when the trimmed line is empty" is false.  The line
`"@x "` even crashes the Go parser. -/
theorem parseToEvent_nonempty_error_cex :
    trimEol (strL "@x") ≠ [] ∧ parseToEvent (strL "@x") = .malformed ∧
      parseToEvent (strL "@x ") = .crash := by
  refine ⟨by decide, by decide, by decide⟩

/-- C6: `AnalyzeErrorMessage` matches the lower-cased input against the
four pattern families in the fixed order Permanent, Server, Network,
explicit Recoverable, returning the first family with a matching
substring; every input matching no pattern of the first three families
classifies as `RecoverableError` — in particular unknown ERROR text is
never `PermanentError`. -/
theorem analyzeErrorMessage_family_order (msg : List Char) :
    (AnalyzeErrorMessage msg = .PermanentError ↔
      matchAny permanentPatterns (msg.map Char.toLower) = true) ∧
    (AnalyzeErrorMessage msg = .ServerError ↔
      (matchAny permanentPatterns (msg.map Char.toLower) = false ∧
        matchAny serverPatterns (msg.map Char.toLower) = true)) ∧
    (AnalyzeErrorMessage msg = .NetworkError ↔
      (matchAny permanentPatterns (msg.map Char.toLower) = false ∧
        matchAny serverPatterns (msg.map Char.toLower) = false ∧
        matchAny networkPatterns (msg.map Char.toLower) = true)) ∧
    (AnalyzeErrorMessage msg = .RecoverableError ↔
      (matchAny permanentPatterns (msg.map Char.toLower) = false ∧
        matchAny serverPatterns (msg.map Char.toLower) = false ∧
        matchAny networkPatterns (msg.map Char.toLower) = false)) := by
  unfold AnalyzeErrorMessage
  cases hp : matchAny permanentPatterns (msg.map Char.toLower) <;>
    cases hsv : matchAny serverPatterns (msg.map Char.toLower) <;>
      cases hn : matchAny networkPatterns (msg.map Char.toLower) <;>
        cases hrv : matchAny recoverablePatterns (msg.map Char.toLower) <;>
          simp [hp, hsv, hn, hrv]

/-- C7 (code evaluated at the failing trace): with
`MaxRecoverableReconnects = 3`, a run of `Loop` receiving four
consecutive Recoverable-classified ERROR failures, each reconnect
attempt succeeding, performs four reconnect attempts and never halts —
the counter is reset to zero after every successful reconnect before the
ceiling is ever consulted, so the claimed halt after the third reconnect
does not happen (the general form shows the ceiling can never fire on
this trace shape for any length). -/
theorem loop_ceiling_never_fires :
    loopRun 3 0 (List.replicate 4 (recovErrStr, [true])) = (4, false) ∧
    ∀ n : Nat, loopRun 3 0 (List.replicate n (recovErrStr, [true])) = (n, false) := by
  have hstep : loopStep 3 0 recovErrStr [true] = (false, 0, 1) := by decide
  have hgen : ∀ n : Nat,
      loopRun 3 0 (List.replicate n (recovErrStr, [true])) = (n, false) := by
    intro n
    induction n with
    | zero => rfl
    | succ k ih =>
      rw [List.replicate_succ]
      show (match loopStep 3 0 recovErrStr [true] with
            | (true, _, n) => (n, true)
            | (false, c, n) =>
              let p := loopRun 3 0 (List.replicate k (recovErrStr, [true]))
              (n + p.1, p.2)) = (k + 1, false)
      rw [hstep, ih]
      simp [Nat.add_comm]
  exact ⟨hgen 4, hgen⟩

/-- C8 (code evaluated at the failing input): within one connection
attempt the `sentRegistration` flag makes the three triggers enqueue the
`NICK`/`USER` registration exactly once (here the fallback timer fires
first and the CAP LS trigger is then suppressed), but `Connect`'s
per-connection reset never clears `sentRegistration`, so on the next
connection attempt (e.g. after `Reconnect`) the triggers enqueue no
registration at all — zero instead of the claimed exactly-once. -/
theorem registration_not_resent_on_reconnect :
    regSends (tryRegisterOnCapLS (tryRegisterFallback
      (initConn (strL "bob") (strL "u")))) = 1 ∧
    (connectReset (tryRegisterOnCapLS (tryRegisterFallback
      (initConn (strL "bob") (strL "u"))))).sentRegistration = true ∧
    regSends (tryRegisterOnCapLS (tryRegisterFallback (connectReset
      (tryRegisterOnCapLS (tryRegisterFallback
        (initConn (strL "bob") (strL "u"))))))) = 1 := by
  refine ⟨by decide, by decide, by decide⟩

/-- C1 (code evaluated at the failing input): in the reachable
post-registration state built by `001 bob`, then a caller request
`Nick("alice")` — where the confirmed nickname is still `bob` — the
`433` rejection of `alice` mutates the confirmed nickname `nickcurrent`
from `bob` to `bob_` (and sends `NICK bob_`), although the triggering
event is a rejection reply, not the registration-success reply and not a
change notification sourced from the current confirmed value. -/
theorem confirmed_mutated_by_433 :
    (nickRequest 2 (strL "alice")
      (handler001 1 ev001bob (initConn (strL "bob") (strL "u")))).nickcurrent
        = strL "bob" ∧
    (nickRequest 2 (strL "alice")
      (handler001 1 ev001bob (initConn (strL "bob") (strL "u")))).fullyConnected
        = true ∧
    (handler433 3 ev433alice (nickRequest 2 (strL "alice")
      (handler001 1 ev001bob (initConn (strL "bob") (strL "u"))))).nickcurrent
        = strL "bob_" ∧
    (handler433 3 ev433alice (nickRequest 2 (strL "alice")
      (handler001 1 ev001bob (initConn (strL "bob") (strL "u"))))).sent.getLast?
        = some (strL "NICK bob_") := by
  refine ⟨by decide, by decide, by decide, by decide⟩

/-- C2 counterexample: on a fresh session for `bob`, the `433` rejection
does not store `bob_` in the separate pending field (`nickPending` stays
empty) and does not leave the confirmed `nickcurrent` unchanged (it
becomes `bob_`), so the claim as stated is false at this input. -/
theorem rejection_pending_cex :
    (handler433 7 ev433bob (initConn (strL "bob") (strL "u"))).nickPending
        ≠ strL "bob_" ∧
    (handler433 7 ev433bob (initConn (strL "bob") (strL "u"))).nickcurrent
        ≠ strL "bob" := by
  refine ⟨by decide, by decide⟩

/-- C2 (amended): on a `433` for the desired nickname `bob` (length at
most 8) the session computes the deterministic alternative `bob_`,
stores it in the current-nickname field `nickcurrent` (which doubles as
the retry candidate; the separate `nickPending` field is not written),
enqueues the outbound `NICK bob_`, and leaves the desired nickname
unchanged; the handling is identical whether or not registration has
completed (`fullyConnected` false or true). -/
theorem rejection_stores_alternative_in_current :
    handler433 7 ev433bob
        { initConn (strL "bob") (strL "u") with fullyConnected := false } =
      { nick := strL "bob", nickcurrent := strL "bob_", user := strL "u",
        nickPending := [], nickError := strL "Nickname already in use",
        nickChangeInProgress := false, nickChangeTimeout := 0,
        lastNickChange := 7, fullyConnected := false, registrationSteps := 0,
        sentRegistration := false, sent := [strL "NICK bob_"] } ∧
    handler433 7 ev433bob
        { initConn (strL "bob") (strL "u") with fullyConnected := true } =
      { nick := strL "bob", nickcurrent := strL "bob_", user := strL "u",
        nickPending := [], nickError := strL "Nickname already in use",
        nickChangeInProgress := false, nickChangeTimeout := 0,
        lastNickChange := 7, fullyConnected := true, registrationSteps := 0,
        sentRegistration := false, sent := [strL "NICK bob_"] } := by
  refine ⟨by decide, by decide⟩

/-- C3 (code evaluated at the failing input): the wire line
`:bob!u@h NICK :alice` parses to the expected NICK notification; in the
reachable state where the confirmed nickname is `bob` but the desired
nickname has diverged to `charlie`, the NICK callback updates the
confirmed nickname to `alice`, clears the in-progress flag and the nick
error — but it also overwrites the diverged desired nickname with
`alice`, instead of preserving `charlie` for later automatic retry. -/
theorem nick_overwrites_diverged_desired :
    parseToEvent (strL ":bob!u@h NICK :alice") = .ok evNickBobAlice ∧
    (nickRequest 2 (strL "charlie")
      (handler001 1 ev001bob (initConn (strL "bob") (strL "u")))).nick
        = strL "charlie" ∧
    (nickRequest 2 (strL "charlie")
      (handler001 1 ev001bob (initConn (strL "bob") (strL "u")))).nickcurrent
        = strL "bob" ∧
    (handlerNICK 3 evNickBobAlice (nickRequest 2 (strL "charlie")
      (handler001 1 ev001bob (initConn (strL "bob") (strL "u"))))).nickcurrent
        = strL "alice" ∧
    (handlerNICK 3 evNickBobAlice (nickRequest 2 (strL "charlie")
      (handler001 1 ev001bob (initConn (strL "bob") (strL "u"))))).nickError
        = [] ∧
    (handlerNICK 3 evNickBobAlice (nickRequest 2 (strL "charlie")
      (handler001 1 ev001bob
        (initConn (strL "bob") (strL "u"))))).nickChangeInProgress = false ∧
    (handlerNICK 3 evNickBobAlice (nickRequest 2 (strL "charlie")
      (handler001 1 ev001bob (initConn (strL "bob") (strL "u"))))).nick
        = strL "alice" := by
  refine ⟨by decide, by decide, by decide, by decide, by decide, by decide,
    by decide⟩

theorem lastIdxOf_concat (c : Char) (l : List Char) :
    lastIdxOf c (l ++ [c]) = some l.length := by
  simp [lastIdxOf, List.findIdx?_cons]

theorem take_drop_frame (c : Char) (sub : List Char) :
    ((c :: (sub ++ [c])).take (sub.length + 1)).drop 1 = sub := by
  have h1 : (c :: (sub ++ [c])) = (c :: sub) ++ [c] := by simp
  have h2 : sub.length + 1 = (c :: sub).length := by simp
  rw [h1, h2, List.take_left]
  simp

/-- C9: dispatching a PRIVMSG whose trailing argument is
`\x01VERSION\x01` rewrites the event code to `CTCP_VERSION` and strips
the `\x01` framing from the payload; and every framed sub-message whose
sub-command is outside the recognized set (`VERSION`, `TIME`,
`PING…`, `USERINFO`, `CLIENTINFO`, `ACTION…`) keeps the generic code
`CTCP`, with the framing likewise stripped. -/
theorem ctcp_reclassification :
    ctcpRewrite evCtcpVersion =
      some { evCtcpVersion with
             Code := strL "CTCP_VERSION",
             Arguments := [strL "#ch", strL "VERSION"] } ∧
    ∀ target sub : List Char, sub ≠ [] →
      sub ≠ strL "VERSION" → sub ≠ strL "TIME" →
      (strL "PING").isPrefixOf sub = false →
      sub ≠ strL "USERINFO" → sub ≠ strL "CLIENTINFO" →
      (strL "ACTION").isPrefixOf sub = false →
      ctcpRewrite { Code := strL "PRIVMSG",
                    Arguments := [target, ctcpDelim :: (sub ++ [ctcpDelim])] } =
        some { Code := strL "CTCP", Arguments := [target, sub] } := by
  constructor
  · decide
  · intro target sub hne hV hT hP hU hC hA
    have hmsg : Event.Message
        { Code := strL "PRIVMSG",
          Arguments := [target, ctcpDelim :: (sub ++ [ctcpDelim])] } =
        ctcpDelim :: (sub ++ [ctcpDelim]) := by
      simp [Event.Message]
    have hli : lastIdxOf ctcpDelim (ctcpDelim :: (sub ++ [ctcpDelim])) =
        some (sub.length + 1) := by
      have h := lastIdxOf_concat ctcpDelim (ctcpDelim :: sub)
      simpa using h
    have hm : ((ctcpDelim :: (sub ++ [ctcpDelim])).take (sub.length + 1)).drop 1
        = sub := take_drop_frame ctcpDelim sub
    have h0 : 0 < sub.length := List.length_pos.mpr hne
    have hlen : 2 < (ctcpDelim :: (sub ++ [ctcpDelim])).length := by
      simp
      omega
    simp only [ctcpRewrite, hmsg, hli, hm]
    rw [if_pos ⟨by trivial, hlen, by trivial⟩, if_pos (Nat.succ_pos sub.length),
      if_neg hV, if_neg hT, if_neg (by simp [hP]), if_neg hU, if_neg hC,
      if_neg (by simp [hA])]
    simp [ctcpUpd]

/-- C9 witness: the unrecognized sub-command `FOO` keeps the generic
`CTCP` code. -/
theorem ctcp_reclassification_witness :
    ctcpRewrite { Code := strL "PRIVMSG",
                  Arguments := [strL "#ch", ctcpDelim :: (strL "FOO" ++ [ctcpDelim])] } =
      some { Code := strL "CTCP", Arguments := [strL "#ch", strL "FOO"] } :=
  ctcp_reclassification.2 (strL "#ch") (strL "FOO") (by decide) (by decide)
    (by decide) (by decide) (by decide) (by decide) (by decide)

/-- C10: for a peer with no active chat in the registry,
`SendDCCMessage`, `GetDCCMessage` and `CloseDCCChat` each return an
error and leave the registry unchanged (`ListActiveDCCChats` is the same
before and after). -/
theorem dcc_no_chat_errors (m : DCCManager) (nick msg : List Char)
    (h : m.findChat nick = none) :
    (SendDCCMessage m nick msg).1.isSome = true ∧
    (SendDCCMessage m nick msg).2 = m ∧
    (GetDCCMessage m nick).1.isSome = true ∧
    (GetDCCMessage m nick).2.2 = m ∧
    (CloseDCCChat m nick).1.isSome = true ∧
    (CloseDCCChat m nick).2 = m ∧
    ListActiveDCCChats (SendDCCMessage m nick msg).2 = ListActiveDCCChats m ∧
    ListActiveDCCChats (GetDCCMessage m nick).2.2 = ListActiveDCCChats m ∧
    ListActiveDCCChats (CloseDCCChat m nick).2 = ListActiveDCCChats m := by
  refine ⟨?_, ?_, ?_, ?_, ?_, ?_, ?_, ?_, ?_⟩ <;>
    simp [SendDCCMessage, GetDCCMessage, CloseDCCChat, h]

/-- C10 witness: the registry holding only a chat with `alice` is
untouched by the three operations applied to `bob`. -/
theorem dcc_no_chat_errors_witness :
    (SendDCCMessage dccSample (strL "bob") (strL "hi")).1.isSome = true ∧
    (SendDCCMessage dccSample (strL "bob") (strL "hi")).2 = dccSample ∧
    (GetDCCMessage dccSample (strL "bob")).1.isSome = true ∧
    (GetDCCMessage dccSample (strL "bob")).2.2 = dccSample ∧
    (CloseDCCChat dccSample (strL "bob")).1.isSome = true ∧
    (CloseDCCChat dccSample (strL "bob")).2 = dccSample ∧
    ListActiveDCCChats (SendDCCMessage dccSample (strL "bob") (strL "hi")).2 =
      ListActiveDCCChats dccSample ∧
    ListActiveDCCChats (GetDCCMessage dccSample (strL "bob")).2.2 =
      ListActiveDCCChats dccSample ∧
    ListActiveDCCChats (CloseDCCChat dccSample (strL "bob")).2 =
      ListActiveDCCChats dccSample :=
  dcc_no_chat_errors dccSample (strL "bob") (strL "hi") (by decide)

end GoIrcEvo
